import Mathlib

/-! The type `cnl::overflow_integer`

A shallow embedding of `include/cnl/overflow_integer.h`.

The header is a C++ template library.  Two layers are modelled:

* the type level: type descriptors `Ty`, on which the promotion resolver
  `_integer_impl::common_type` and the result types of the operator dispatchers
  are functions;
* the value level: a wrapper value carries its representation type, its overflow
  tag and its raw value, a mathematical integer; an operation in which an
  overflow policy may signal an error returns `Option`, and `none` is the error.

The overflow policies themselves (`overflow.h`) are consumed, not defined, by the
header; they are a parameter (`Overflow`) of every dispatcher.  The fundamental
types and their conversion rules belong to the language; they are modelled for
the LP64 data model (8-bit char, 16-bit short, 32-bit int, 64-bit long and
long long).  Wrapper values are modelled over the integer types; the
interoperation with `fixed_point` (lines 307-329) is delegated by the header to
`fixed_point.h` and is not part of the model.
-/

namespace cnl

/-! ## Fundamental types of the language -/

/-- The standard signed and unsigned integer types. -/
inductive Integral where
  | signed_char | unsigned_char
  | short | unsigned_short
  | int | unsigned_int
  | long | unsigned_long
  | long_long | unsigned_long_long
  deriving DecidableEq, Repr

/-- The floating-point types. -/
inductive Floating where
  | float | double | long_double
  deriving DecidableEq, Repr

/-- The arithmetic types: those for which `std::is_integral` or
`std::is_floating_point` holds. -/
inductive Builtin where
  | integral (i : Integral)
  | floating (f : Floating)
  deriving DecidableEq, Repr

namespace Integral

/-- Signedness, `numeric_limits<T>::is_signed`. -/
def is_signed : Integral → Bool
  | signed_char | short | int | long | long_long => true
  | unsigned_char | unsigned_short | unsigned_int | unsigned_long | unsigned_long_long => false

/-- Integer conversion rank. -/
def rank : Integral → Nat
  | signed_char | unsigned_char => 1
  | short | unsigned_short => 2
  | int | unsigned_int => 3
  | long | unsigned_long => 4
  | long_long | unsigned_long_long => 5

/-- Width in bits of the object representation (LP64). -/
def width : Integral → Nat
  | signed_char | unsigned_char => 8
  | short | unsigned_short => 16
  | int | unsigned_int => 32
  | long | unsigned_long => 64
  | long_long | unsigned_long_long => 64

/-- The unsigned type of the same rank. -/
def to_unsigned : Integral → Integral
  | signed_char | unsigned_char => unsigned_char
  | short | unsigned_short => unsigned_short
  | int | unsigned_int => unsigned_int
  | long | unsigned_long => unsigned_long
  | long_long | unsigned_long_long => unsigned_long_long

/-- Value of `numeric_limits<T>::max()`. -/
def max (t : Integral) : Int :=
  if t.is_signed then 2 ^ (t.width - 1) - 1 else 2 ^ t.width - 1

/-- Value of `numeric_limits<T>::lowest()`. -/
def lowest (t : Integral) : Int :=
  if t.is_signed then -(2 ^ (t.width - 1)) else 0

/-- A mathematical integer is representable in the type. -/
def in_range (t : Integral) (v : Int) : Prop :=
  t.lowest ≤ v ∧ v ≤ t.max

instance (t : Integral) (v : Int) : Decidable (t.in_range v) := by
  unfold in_range; infer_instance

/-- Value of `static_cast<T>(v)` for an integer `v`: reduction modulo `2 ^ width`
into the range of `T`. -/
def static_cast (t : Integral) (v : Int) : Int :=
  if t.is_signed then
    (v + 2 ^ (t.width - 1)) % 2 ^ t.width - 2 ^ (t.width - 1)
  else
    v % 2 ^ t.width

/-- Integral promotion: a type of rank below `int` becomes `int`, which can hold
all of its values. -/
def promote (t : Integral) : Integral :=
  if t.rank < int.rank then int else t

/-- The usual arithmetic conversions on two integer operands: the type in which
a built-in binary operator is evaluated. -/
def usual_arithmetic (a b : Integral) : Integral :=
  let a' := a.promote
  let b' := b.promote
  if a' = b' then a'
  else if a'.is_signed = b'.is_signed then (if a'.rank < b'.rank then b' else a')
  else
    let u := if a'.is_signed then b' else a'
    let s := if a'.is_signed then a' else b'
    if s.rank ≤ u.rank then u
    else if u.width < s.width then s
    else s.to_unsigned

/-- The type `std::common_type<A, B>::type` of two integer types: the decayed type of
`false ? declval<A>() : declval<B>()`.  Operands of one type keep it; otherwise
the usual arithmetic conversions apply. -/
def common_type (a b : Integral) : Integral :=
  if a = b then a else a.usual_arithmetic b

end Integral

namespace Floating

/-- Order of the floating-point types in the usual arithmetic conversions. -/
def rank : Floating → Nat
  | float => 1
  | double => 2
  | long_double => 3

end Floating

namespace Builtin

/-- The trait `std::is_integral`. -/
def is_integral : Builtin → Bool
  | integral _ => true
  | floating _ => false

/-- The trait `std::is_floating_point`. -/
def is_floating_point : Builtin → Bool
  | integral _ => false
  | floating _ => true

/-- The usual arithmetic conversions on two arithmetic operands. -/
def usual_arithmetic : Builtin → Builtin → Builtin
  | integral a, integral b => integral (a.usual_arithmetic b)
  | floating a, integral _ => floating a
  | integral _, floating b => floating b
  | floating a, floating b => floating (if a.rank < b.rank then b else a)

/-- The type `std::common_type<A, B>::type` of two arithmetic types, as for two
integer types. -/
def common_type (a b : Builtin) : Builtin :=
  if a = b then a else a.usual_arithmetic b

end Builtin

/-! ## Overflow tags and type descriptors -/

/-- An overflow tag: a stateless marker type that selects a policy. -/
structure Tag where
  id : Nat
  deriving DecidableEq, Repr

/-- The default tag of `overflow_integer`. -/
def throwing_overflow_tag : Tag := ⟨0⟩

/-- Type descriptors: an arithmetic type, or `overflow_integer<Rep, OverflowTag>`
over any descriptor. -/
inductive Ty where
  | builtin (b : Builtin)
  | overflow_integer (rep : Ty) (tag : Tag)
  deriving DecidableEq, Repr

/-- Nesting depth of wrappers in a descriptor. -/
def Ty.depth : Ty → Nat
  | .builtin _ => 0
  | .overflow_integer rep _ => rep.depth + 1

namespace _integer_impl

/-- The trait `is_overflow_int` (lines 30-38). -/
def is_overflow_int : Ty → Bool
  | .overflow_integer _ _ => true
  | .builtin _ => false

end _integer_impl

/-! ## The promotion resolver (lines 54-90 and 283-341)

Template instantiation is a search through the specialisations of a template; a
specialisation may refer to another instantiation, and nothing bounds the chain.
The instantiation depth is therefore explicit: `common_type n` follows at most
`n` nested instantiations, and `none` stands for "no member `type`" (no
specialisation applies, or the chain did not end within `n`). -/

mutual

/-- The trait `std::common_type<Lhs, Rhs>` on descriptors: the language rule on two
arithmetic types, and the specialisations of lines 283-341 as soon as one
operand is an `overflow_integer`; each of those inherits
`_integer_impl::common_type` of the same operands. -/
def std_common_type : Nat → Ty → Ty → Option Ty
  | _, .builtin a, .builtin b => some (.builtin (a.common_type b))
  | 0, _, _ => none
  | n + 1, lhs, rhs => _integer_impl.common_type n lhs rhs

/-- The trait `_integer_impl::common_type<Lhs, Rhs>` (lines 54-90).  The primary
template has no definition.  Specialisations, most specialised first:
two wrappers of one tag (57-65); a wrapper and an integral type that is not a
wrapper (67-75); a wrapper and a floating-point type (77-84); anything and a
wrapper, which inherits the instantiation with the operands exchanged (86-90). -/
def _integer_impl.common_type : Nat → Ty → Ty → Option Ty
  | 0, _, _ => none
  | n + 1, .overflow_integer lhs_rep lhs_tag, .overflow_integer rhs_rep rhs_tag =>
      if lhs_tag = rhs_tag then
        (std_common_type n lhs_rep rhs_rep).map fun rep => .overflow_integer rep lhs_tag
      else
        _integer_impl.common_type n (.overflow_integer rhs_rep rhs_tag)
          (.overflow_integer lhs_rep lhs_tag)
  | n + 1, .overflow_integer lhs_rep lhs_tag, .builtin rhs =>
      if rhs.is_integral then
        (std_common_type n lhs_rep (.builtin rhs)).map fun rep => .overflow_integer rep lhs_tag
      else if rhs.is_floating_point then
        std_common_type n lhs_rep (.builtin rhs)
      else none
  | n + 1, .builtin lhs, .overflow_integer rhs_rep rhs_tag =>
      _integer_impl.common_type n (.overflow_integer rhs_rep rhs_tag) (.builtin lhs)
  | _ + 1, .builtin _, .builtin _ => none

end

/-! ## Operators -/

/-- The binary arithmetic operators. -/
inductive binary_op where
  | add_op | subtract_op | multiply_op | divide_op
  deriving DecidableEq, Repr

/-- The comparison operators. -/
inductive comparison_op where
  | equal_op | not_equal_op | less_than_op | greater_than_op
  | less_than_or_equal_op | greater_than_or_equal_op
  deriving DecidableEq, Repr

/-- The unary operators. -/
inductive unary_op where
  | minus_op | plus_op
  deriving DecidableEq, Repr

/-- The mathematical result of a unary operator. -/
def unary_op.exact : unary_op → Int → Int
  | .minus_op, rhs => -rhs
  | .plus_op, rhs => rhs

/-- The mathematical result of a binary arithmetic operator; division truncates
towards zero and has no result for a zero divisor. -/
def binary_op.exact : binary_op → Int → Int → Option Int
  | .add_op, lhs, rhs => some (lhs + rhs)
  | .subtract_op, lhs, rhs => some (lhs - rhs)
  | .multiply_op, lhs, rhs => some (lhs * rhs)
  | .divide_op, lhs, rhs => if rhs = 0 then none else some (lhs.tdiv rhs)

/-- The mathematical result of a comparison. -/
def comparison_op.exact : comparison_op → Int → Int → Bool
  | .equal_op, lhs, rhs => decide (lhs = rhs)
  | .not_equal_op, lhs, rhs => decide (lhs ≠ rhs)
  | .less_than_op, lhs, rhs => decide (lhs < rhs)
  | .greater_than_op, lhs, rhs => decide (lhs > rhs)
  | .less_than_or_equal_op, lhs, rhs => decide (lhs ≤ rhs)
  | .greater_than_or_equal_op, lhs, rhs => decide (lhs ≥ rhs)

/-- Value of the built-in comparison of an operand of type `Lhs` with one of type
`Rhs`: both are first converted to the type of the usual arithmetic conversions. -/
def comparison_op.native (op : comparison_op) (Lhs : Integral) (lhs : Int)
    (Rhs : Integral) (rhs : Int) : Bool :=
  op.exact ((Lhs.usual_arithmetic Rhs).static_cast lhs) ((Lhs.usual_arithmetic Rhs).static_cast rhs)

/-! ## The consumed interface: overflow policies (`overflow.h`)

The header calls, for a tag, `convert<Result>(tag, value)`,
`_overflow_impl::binary_operator<Tag, Operator>()(lhs, rhs)` and
`_overflow_impl::comparison_operator<Tag, Operator>()(lhs, rhs)`, and, for two
tags, `_impl::common_type_t<LhsTag, RhsTag>`.  None of them is defined by the
header, so they are parameters.  A handler sees the static types of its arguments
and their values; it either returns a value or signals an error (`none`). -/

/-- What one overflow tag supplies. -/
structure Policy where
  /-- The call `convert<Result>(tag, value)` for `value` of type `Input`. -/
  convert : (Result Input : Integral) → Int → Option Int
  /-- The return type of the binary handler for operands of the given types. -/
  binary_result : binary_op → Integral → Integral → Integral
  /-- The call `_overflow_impl::binary_operator<Tag, Operator>()(lhs, rhs)`. -/
  binary_operator : binary_op → Integral → Integral → Int → Int → Option Int
  /-- The call `_overflow_impl::comparison_operator<Tag, Operator>()(lhs, rhs)`. -/
  comparison_operator : comparison_op → Integral → Integral → Int → Int → Option Bool

/-- The interface consumed from `overflow.h`: the policy of every tag, and the
common type of two tags where one is defined. -/
structure Overflow where
  policy : Tag → Policy
  common_tag : Tag → Tag → Option Tag

/-! ## The wrapper (lines 98-139) -/

/-- A value of type `overflow_integer<rep, overflow_tag>`; `value` is the one
member, read by `_impl::to_rep`. -/
structure overflow_integer where
  rep : Integral
  overflow_tag : Tag
  value : Int
  deriving DecidableEq, Repr

/-- The accessor `_impl::to_rep`. -/
def to_rep (x : overflow_integer) : Int := x.value

/-- The descriptor of the static type of a wrapper value. -/
def overflow_integer.type (x : overflow_integer) : Ty :=
  .overflow_integer (.builtin (.integral x.rep)) x.overflow_tag

/-- The constructor `overflow_integer(Rhs const& rhs)` (lines 119-123) of
`overflow_integer<rep, overflow_tag>`, for `rhs` of integer type `Rhs`: the member is
`convert<rep>(overflow_tag{}, rhs)`. -/
def overflow_integer.from_rhs (O : Overflow) (rep : Integral) (overflow_tag : Tag)
    (Rhs : Integral) (rhs : Int) : Option overflow_integer :=
  ((O.policy overflow_tag).convert rep Rhs rhs).map fun v => ⟨rep, overflow_tag, v⟩

/-- Initialisation of an `overflow_integer<rep, overflow_tag>` from a wrapper `rhs`.  A
source of that very type is copied (the implicit copy constructor; a constructor
template is never a copy constructor, and a reference parameter binds to it
directly), with no conversion.  Any other wrapper goes through the constructor
`overflow_integer(overflow_integer<RhsRep, RhsOverflowTag> const& rhs)` (lines 113-117),
which delegates to the constructor above with `to_rep(rhs)`. -/
def overflow_integer.from_overflow_integer (O : Overflow) (rep : Integral) (overflow_tag : Tag)
    (rhs : overflow_integer) : Option overflow_integer :=
  if rhs.rep = rep ∧ rhs.overflow_tag = overflow_tag then some rhs
  else overflow_integer.from_rhs O rep overflow_tag rhs.rep (to_rep rhs)

/-- The two static assertions of the constructor from `constant<Value>`
(lines 130-131).  `ValueType` is `decltype(Value)`, fixed by the preprocessor name
`CNL_IMPL_CONSTANT_VALUE_TYPE`, which the header does not define. -/
def constant_accepted (ValueType : Integral) (Value : Int) (rep : Integral) : Bool :=
  comparison_op.less_than_or_equal_op.native ValueType Value rep rep.max
    && (!ValueType.is_signed
      || comparison_op.greater_than_or_equal_op.native ValueType Value rep rep.lowest)

/-- The constructor `overflow_integer(constant<Value>)` (lines 125-132): when the static
assertions hold the member is `static_cast<rep>(Value)`; otherwise the program is
rejected (`none`). -/
def overflow_integer.from_constant (rep : Integral) (overflow_tag : Tag)
    (ValueType : Integral) (Value : Int) : Option overflow_integer :=
  if constant_accepted ValueType Value rep then
    some ⟨rep, overflow_tag, rep.static_cast Value⟩
  else none

/-- The conversion `explicit operator T()` (lines 134-138), for an integer type `T`:
`static_cast<T>(_impl::to_rep(*this))`. -/
def overflow_integer.cast (T : Integral) (x : overflow_integer) : Int :=
  T.static_cast (to_rep x)

/-- The function `make_overflow_int<OverflowTag>(value)` (lines 187-192) for `value` of
type `Rep`: the return statement converts `value` to `overflow_integer<Rep, OverflowTag>`
through the constructor from a value. -/
def make_overflow_int (O : Overflow) (OverflowTag : Tag) (Rep : Integral) (value : Int) :
    Option overflow_integer :=
  overflow_integer.from_rhs O Rep OverflowTag Rep value

/-! ## The operator dispatchers (lines 197-262) -/

/-- Type of the built-in unary operator applied to an operand of type `Rep`: the operand
undergoes integral promotion. -/
def unary_op.result (_ : unary_op) (Rep : Integral) : Integral := Rep.promote

/-- Value of the built-in unary operator, `Operator()(rhs)`, on an operand of type `Rep`.
The negation is evaluated in the promoted type; where it leaves the range of a
signed type the language leaves the result open, and the model takes the value
modulo `2 ^ width`, which is also the defined result for an unsigned type. -/
def unary_op.apply (op : unary_op) (Rep : Integral) (rhs : Int) : Int :=
  match op with
  | .minus_op => Rep.promote.static_cast (-rhs)
  | .plus_op => rhs

namespace _impl

/-- The specialisation `unary_operator<Operator, overflow_integer<Rep, OverflowTag>>`
(lines 201-209): the operator is applied to `to_rep(operand)` and the result, of
type `decltype(Operator()(to_rep(operand)))`, is passed to the constructor of the
wrapper of that type and the same tag. -/
def unary_operator (O : Overflow) (op : unary_op) (operand : overflow_integer) :
    Option overflow_integer :=
  overflow_integer.from_rhs O (op.result operand.rep) operand.overflow_tag
    (op.result operand.rep) (op.apply operand.rep (to_rep operand))

/-- The specialisation `binary_operator` for operands with a common overflow tag
(lines 211-222); `OverflowTag` is the tag of both operands. -/
def binary_operator_common (O : Overflow) (op : binary_op) (OverflowTag : Tag)
    (lhs rhs : overflow_integer) : Option overflow_integer :=
  ((O.policy OverflowTag).binary_operator op lhs.rep rhs.rep (to_rep lhs) (to_rep rhs)).bind
    fun r => make_overflow_int O OverflowTag
      ((O.policy OverflowTag).binary_result op lhs.rep rhs.rep) r

/-- The template `binary_operator<OperatorTag, overflow_integer<LhsRep, LhsTag>,
overflow_integer<RhsRep, RhsTag>>`: with one tag the more specialised definition
(lines 211-222) is chosen; otherwise the definition for different policies
(lines 224-235), which passes both operands to the specialisation for two
`overflow_integer<LhsRep, common_tag>`; each of its reference parameters binds to an
operand that already has that type and is otherwise initialised from the operand
by the converting constructor.  Without a common tag there is no function to
call (`none`). -/
def binary_operator (O : Overflow) (op : binary_op) (lhs rhs : overflow_integer) :
    Option overflow_integer :=
  if lhs.overflow_tag = rhs.overflow_tag then
    binary_operator_common O op lhs.overflow_tag lhs rhs
  else
    (O.common_tag lhs.overflow_tag rhs.overflow_tag).bind fun common_tag =>
      (overflow_integer.from_overflow_integer O lhs.rep common_tag lhs).bind fun l =>
        (overflow_integer.from_overflow_integer O lhs.rep common_tag rhs).bind fun r =>
          binary_operator_common O op common_tag l r

/-- The return type of `binary_operator`, from the trailing return types of lines 217
and 230, for wrappers over integer types. -/
def binary_operator_result (O : Overflow) (op : binary_op) : Ty → Ty → Option Ty
  | .overflow_integer (.builtin (.integral LhsRep)) LhsTag,
    .overflow_integer (.builtin (.integral RhsRep)) RhsTag =>
      if LhsTag = RhsTag then
        some (.overflow_integer
          (.builtin (.integral ((O.policy LhsTag).binary_result op LhsRep RhsRep))) LhsTag)
      else
        (O.common_tag LhsTag RhsTag).map fun common_tag =>
          .overflow_integer
            (.builtin (.integral ((O.policy common_tag).binary_result op LhsRep LhsRep)))
            common_tag
  | _, _ => none

/-- The specialisation `comparison_operator` for operands with a common overflow tag
(lines 237-248). -/
def comparison_operator_common (O : Overflow) (op : comparison_op) (OverflowTag : Tag)
    (lhs rhs : overflow_integer) : Option Bool :=
  (O.policy OverflowTag).comparison_operator op lhs.rep rhs.rep (to_rep lhs) (to_rep rhs)

/-- The template `comparison_operator` on two wrappers: lines 237-248 for one tag,
lines 250-261 for different policies, where the operands are passed as to
`binary_operator`. -/
def comparison_operator (O : Overflow) (op : comparison_op) (lhs rhs : overflow_integer) :
    Option Bool :=
  if lhs.overflow_tag = rhs.overflow_tag then
    comparison_operator_common O op lhs.overflow_tag lhs rhs
  else
    (O.common_tag lhs.overflow_tag rhs.overflow_tag).bind fun common_tag =>
      (overflow_integer.from_overflow_integer O lhs.rep common_tag lhs).bind fun l =>
        (overflow_integer.from_overflow_integer O lhs.rep common_tag rhs).bind fun r =>
          comparison_operator_common O op common_tag l r

end _impl

/-! ## Representation and numeric traits (lines 144-171) -/

namespace _impl

/-- The specialisation `get_rep<overflow_integer<Rep, OverflowTag>>` (lines 145-148); for
other types the trait is not defined by this header. -/
def get_rep : Ty → Option Ty
  | .overflow_integer Rep _ => some Rep
  | .builtin _ => none

/-- The specialisation `set_rep<overflow_integer<OldRep, OverflowTag>, NewRep>`
(lines 150-153). -/
def set_rep : Ty → Ty → Option Ty
  | .overflow_integer _ OverflowTag, NewRep => some (.overflow_integer NewRep OverflowTag)
  | .builtin _, _ => none

end _impl

/-- The specialisation `from_value<overflow_integer<Rep, OverflowTag>, Value>`
(lines 168-171). -/
def from_value : Ty → Ty → Option Ty
  | .overflow_integer _ OverflowTag, Value => some (.overflow_integer Value OverflowTag)
  | .builtin _, _ => none

/-- The trait `digits` (lines 159-161): the specialisation for a wrapper inherits
`digits<Rep>`.  The trait on the arithmetic types is defined elsewhere and is the
parameter `digits_builtin`. -/
def digits (digits_builtin : Builtin → Nat) : Ty → Nat
  | .builtin b => digits_builtin b
  | .overflow_integer Rep _ => digits digits_builtin Rep

/-- The trait `set_digits` (lines 163-166): for a wrapper the type is
`overflow_integer<set_digits_t<Rep, MinNumBits>, OverflowTag>`.  The trait on the
arithmetic types is defined elsewhere and is the parameter `set_digits_builtin`. -/
def set_digits (set_digits_builtin : Builtin → Nat → Option Builtin) : Ty → Nat → Option Ty
  | .builtin b, MinNumBits => (set_digits_builtin b MinNumBits).map .builtin
  | .overflow_integer Rep OverflowTag, MinNumBits =>
      (set_digits set_digits_builtin Rep MinNumBits).map fun r => .overflow_integer r OverflowTag

/-- The arithmetic type at the core of a descriptor, below every wrapper. -/
def Ty.base : Ty → Builtin
  | .builtin b => b
  | .overflow_integer Rep _ => Rep.base

/-- The descriptor with the arithmetic type at its core replaced and every wrapper,
with its tag, kept. -/
def Ty.with_base : Ty → Builtin → Ty
  | .builtin _, b => .builtin b
  | .overflow_integer Rep OverflowTag, b => .overflow_integer (Rep.with_base b) OverflowTag

/-- Modelled from the spec: the trait `digits` on the arithmetic types, defined in
`num_traits.h` and not in this header: the digit count of the type, as
`numeric_limits<T>::digits`. -/
def Builtin.digits : Builtin → Nat
  | .integral i => if i.is_signed then i.width - 1 else i.width
  | .floating .float => 24
  | .floating .double => 53
  | .floating .long_double => 64

/-- Modelled from the spec: the trait `set_digits` on the arithmetic types, defined in
`num_traits.h` and not in this header: for an integer type, the narrowest integer
type of the same signedness with at least `MinNumBits` digits, if there is one. -/
def Builtin.set_digits : Builtin → Nat → Option Builtin
  | .integral i, MinNumBits =>
      ((if i.is_signed then [Integral.signed_char, .short, .int, .long]
        else [Integral.unsigned_char, .unsigned_short, .unsigned_int, .unsigned_long]).find?
          fun t => decide (MinNumBits ≤ Builtin.digits (.integral t))).map .integral
  | .floating _, _ => none

/-! ## Numeric limits (lines 265-280 and 343-355) -/

/-- The members of `numeric_limits` that the claims are about. -/
structure numeric_limits where
  min : Int
  max : Int
  lowest : Int
  is_signed : Bool
  is_integer : Bool
  deriving DecidableEq, Repr

/-- The limits `numeric_limits<T>` of an integer type. -/
def Integral.numeric_limits (t : Integral) : numeric_limits :=
  ⟨t.lowest, t.max, t.lowest, t.is_signed, true⟩

/-- Modelled from the spec: `numeric_limits<_impl::number_base<Derived, Rep>>` of
`bits/number_base.h`, which the header inherits and does not define: the range
limits are forwarded verbatim from the limits of `Rep`. -/
def number_base_numeric_limits (rep_limits : numeric_limits) : numeric_limits :=
  rep_limits

/-- The specialisation `cnl::numeric_limits<overflow_integer<Rep, OverflowTag>>`
(lines 269-273): the limits of the base class with `is_integer = true`. -/
def cnl_numeric_limits (rep_limits : numeric_limits) (_ : Tag) : numeric_limits :=
  { number_base_numeric_limits rep_limits with is_integer := true }

/-- The specialisation `cnl::numeric_limits<overflow_integer<Rep, OverflowTag> const>`
(lines 275-279). -/
def cnl_numeric_limits_const (rep_limits : numeric_limits) (_ : Tag) : numeric_limits :=
  { number_base_numeric_limits rep_limits with is_integer := true }

/-- The specialisation `std::numeric_limits<overflow_integer<Rep, OverflowTag>>`
(lines 346-349): inherits `cnl::numeric_limits` of the same type. -/
def std_numeric_limits (rep_limits : numeric_limits) (OverflowTag : Tag) : numeric_limits :=
  cnl_numeric_limits rep_limits OverflowTag

/-- The specialisation `std::numeric_limits<overflow_integer<Rep, OverflowTag> const>`
(lines 351-354): inherits `cnl::numeric_limits` of the type without `const`. -/
def std_numeric_limits_const (rep_limits : numeric_limits) (OverflowTag : Tag) :
    numeric_limits :=
  cnl_numeric_limits rep_limits OverflowTag

/-! ## Properties a policy may have -/

/-- The conversion rule of the policy returns a value that the result type can
represent unchanged. -/
def Policy.converts_in_range (P : Policy) : Prop :=
  ∀ (Result Input : Integral) (v : Int), Result.in_range v → P.convert Result Input v = some v

/-- What the binary handler returns is a value of its return type. -/
def Policy.binary_typed (P : Policy) : Prop :=
  ∀ (op : binary_op) (Lhs Rhs : Integral) (lhs rhs r : Int),
    P.binary_operator op Lhs Rhs lhs rhs = some r → (P.binary_result op Lhs Rhs).in_range r

/-- The comparison handler returns the mathematical comparison of its arguments
whenever no overflow is involved: both are representable in the type to which the
built-in comparison converts operands of their types. -/
def Policy.compares_representable (P : Policy) : Prop :=
  ∀ (op : comparison_op) (Lhs Rhs : Integral) (lhs rhs : Int),
    (Lhs.usual_arithmetic Rhs).in_range lhs → (Lhs.usual_arithmetic Rhs).in_range rhs →
      P.comparison_operator op Lhs Rhs lhs rhs = some (op.exact lhs rhs)

/-- The binary handler signals an error whenever the mathematical result is not
representable in its return type. -/
def Policy.binary_signals (P : Policy) : Prop :=
  ∀ (op : binary_op) (Lhs Rhs : Integral) (lhs rhs : Int),
    (∀ r, op.exact lhs rhs = some r → ¬ (P.binary_result op Lhs Rhs).in_range r) →
      P.binary_operator op Lhs Rhs lhs rhs = none

/-- The conversion rule signals an error whenever the value is not representable in
the result type. -/
def Policy.convert_signals (P : Policy) : Prop :=
  ∀ (Result Input : Integral) (v : Int), ¬ Result.in_range v → P.convert Result Input v = none

/-- Modelled from the spec: the throwing policy of `overflow.h`, which the header
includes but does not define.  Its conversion and its binary handler return the
mathematical result when the result type can represent it and signal an error
otherwise; the handlers work in the type of the built-in operator; a comparison
returns the mathematical comparison of the raw values. -/
def throwing_policy : Policy where
  convert := fun Result _ v => if Result.in_range v then some v else none
  binary_result := fun _ Lhs Rhs => Lhs.usual_arithmetic Rhs
  binary_operator := fun op Lhs Rhs lhs rhs =>
    (op.exact lhs rhs).bind fun r =>
      if (Lhs.usual_arithmetic Rhs).in_range r then some r else none
  comparison_operator := fun op _ _ lhs rhs => some (op.exact lhs rhs)

/-- An instance of the consumed interface in which every tag selects the throwing
policy and two different tags have the first of them as their common tag. -/
def throwing_overflow : Overflow where
  policy := fun _ => throwing_policy
  common_tag := fun lhs _ => some lhs

/-! ## Auxiliary facts -/

/-- A value inside the range of an integer type is unchanged by `static_cast`. -/
theorem Integral.static_cast_of_in_range (t : Integral) (v : Int) (h : t.in_range v) :
    t.static_cast v = v := by
  cases t <;>
    simp [Integral.in_range, Integral.lowest, Integral.max, Integral.static_cast,
      Integral.is_signed, Integral.width] at h ⊢ <;> omega

/-- The constructor from a value stores exactly what the conversion rule returns. -/
theorem overflow_integer.from_rhs_eq_some (O : Overflow) (rep Rhs : Integral) (T : Tag)
    (rhs v : Int) (h : (O.policy T).convert rep Rhs rhs = some v) :
    overflow_integer.from_rhs O rep T Rhs rhs = some ⟨rep, T, v⟩ := by
  simp [overflow_integer.from_rhs, h]

/-- Whatever the constructor from a value builds has the requested type. -/
theorem overflow_integer.from_rhs_type (O : Overflow) (rep Rhs : Integral) (T : Tag)
    (rhs : Int) (w : overflow_integer)
    (h : overflow_integer.from_rhs O rep T Rhs rhs = some w) :
    w.rep = rep ∧ w.overflow_tag = T := by
  unfold overflow_integer.from_rhs at h
  cases hc : (O.policy T).convert rep Rhs rhs with
  | none => simp [hc] at h
  | some v =>
    simp [hc] at h
    subst h
    exact ⟨rfl, rfl⟩

/-- Whatever the initialisation from a wrapper builds has the requested type. -/
theorem overflow_integer.from_overflow_integer_type (O : Overflow) (rep : Integral) (T : Tag)
    (rhs w : overflow_integer)
    (h : overflow_integer.from_overflow_integer O rep T rhs = some w) :
    w.rep = rep ∧ w.overflow_tag = T := by
  unfold overflow_integer.from_overflow_integer at h
  by_cases hc : rhs.rep = rep ∧ rhs.overflow_tag = T
  · simp only [hc, and_self, if_true, Option.some.injEq] at h
    subst h
    exact hc
  · simp only [hc, if_false] at h
    exact overflow_integer.from_rhs_type O rep rhs.rep T (to_rep rhs) w h

/-- A wrapper that does not have the target type is converted by the constructor from
its raw value, under every policy. -/
theorem overflow_integer.from_overflow_integer_of_ne (O : Overflow) (rep : Integral) (T : Tag)
    (rhs : overflow_integer) (h : ¬ (rhs.rep = rep ∧ rhs.overflow_tag = T)) :
    overflow_integer.from_overflow_integer O rep T rhs
      = overflow_integer.from_rhs O rep T rhs.rep (to_rep rhs) := by
  simp only [overflow_integer.from_overflow_integer, h, if_false]

/-- A wrapper that has the target type is taken as it is, under every policy. -/
theorem overflow_integer.from_overflow_integer_of_eq (O : Overflow) (rhs : overflow_integer) :
    overflow_integer.from_overflow_integer O rhs.rep rhs.overflow_tag rhs = some rhs := by
  simp [overflow_integer.from_overflow_integer]

/-- Under a policy that converts representable values unchanged, initialising from a
wrapper whose raw value is a value of its representation type is constructing
from that raw value, whatever the type of the source. -/
theorem overflow_integer.from_overflow_integer_eq_from_rhs (O : Overflow) (rep : Integral)
    (T : Tag) (rhs : overflow_integer)
    (hconv : (O.policy T).converts_in_range) (hv : rhs.rep.in_range (to_rep rhs)) :
    overflow_integer.from_overflow_integer O rep T rhs
      = overflow_integer.from_rhs O rep T rhs.rep (to_rep rhs) := by
  by_cases hc : rhs.rep = rep ∧ rhs.overflow_tag = T
  · obtain ⟨h1, h2⟩ := hc
    subst h1 h2
    rw [overflow_integer.from_overflow_integer_of_eq,
      overflow_integer.from_rhs_eq_some O _ _ _ _ _ (hconv _ _ _ hv)]
    rfl
  · exact overflow_integer.from_overflow_integer_of_ne O rep T rhs hc

/-- The throwing policy returns a representable value unchanged. -/
theorem throwing_policy_converts_in_range : throwing_policy.converts_in_range := by
  intro Result Input v h
  simp [throwing_policy, h]

/-- The binary handler of the throwing policy returns values of its return type. -/
theorem throwing_policy_binary_typed : throwing_policy.binary_typed := by
  intro op Lhs Rhs lhs rhs r h
  simp only [throwing_policy] at h ⊢
  cases he : op.exact lhs rhs with
  | none => simp [he] at h
  | some m =>
    simp only [he, Option.some_bind] at h
    by_cases hr : (Lhs.usual_arithmetic Rhs).in_range m
    · simp [hr] at h
      subst h
      exact hr
    · simp [hr] at h

/-- The binary handler of the throwing policy signals every unrepresentable result. -/
theorem throwing_policy_binary_signals : throwing_policy.binary_signals := by
  intro op Lhs Rhs lhs rhs h
  simp only [throwing_policy] at h ⊢
  cases he : op.exact lhs rhs with
  | none => simp
  | some m => simp [h m he]

/-- The conversion of the throwing policy signals every unrepresentable value. -/
theorem throwing_policy_convert_signals : throwing_policy.convert_signals := by
  intro Result Input v h
  simp [throwing_policy, h]

/-- The comparison handler of the throwing policy compares mathematically. -/
theorem throwing_policy_compares_representable : throwing_policy.compares_representable := by
  intro op Lhs Rhs lhs rhs _ _
  rfl

/-- The built-in comparison of two values that the type of the usual arithmetic
conversions can represent is their mathematical comparison. -/
theorem comparison_op.native_of_in_range (op : comparison_op) (Lhs Rhs : Integral)
    (lhs rhs : Int) (hl : (Lhs.usual_arithmetic Rhs).in_range lhs)
    (hr : (Lhs.usual_arithmetic Rhs).in_range rhs) :
    op.native Lhs lhs Rhs rhs = op.exact lhs rhs := by
  unfold comparison_op.native
  rw [Integral.static_cast_of_in_range _ lhs hl, Integral.static_cast_of_in_range _ rhs hr]

/-- The digits of a descriptor are the digits of the arithmetic type at its core. -/
theorem digits_eq_base (digits_builtin : Builtin → Nat) (R : Ty) :
    digits digits_builtin R = digits_builtin R.base := by
  induction R with
  | builtin b => rfl
  | overflow_integer rep tag ih => simpa only [digits, Ty.base] using ih

/-- The trait `set_digits` replaces the arithmetic type at the core of a descriptor by
what the trait on the arithmetic types gives, and yields no type when that does
not. -/
theorem set_digits_eq_base (set_digits_builtin : Builtin → Nat → Option Builtin) (R : Ty)
    (n : Nat) :
    set_digits set_digits_builtin R n = (set_digits_builtin R.base n).map R.with_base := by
  induction R with
  | builtin b =>
    simp only [set_digits, Ty.base]
    cases set_digits_builtin b n <;> rfl
  | overflow_integer rep tag ih =>
    simp only [set_digits, Ty.base, ih]
    cases set_digits_builtin rep.base n <;> rfl

/-- With one tag on both sides the dispatcher is the definition of lines 211-222. -/
theorem _impl.binary_operator_of_common_tag (O : Overflow) (op : binary_op)
    (lhs rhs : overflow_integer) (h : lhs.overflow_tag = rhs.overflow_tag) :
    _impl.binary_operator O op lhs rhs
      = _impl.binary_operator_common O op lhs.overflow_tag lhs rhs := by
  simp [_impl.binary_operator, h]

/-- The definition of lines 211-222 under a policy that converts representable values
unchanged and whose handler is well typed: the handler decides the outcome. -/
theorem _impl.binary_operator_common_eq (O : Overflow) (op : binary_op) (T : Tag)
    (lhs rhs : overflow_integer)
    (hconv : (O.policy T).converts_in_range) (htyped : (O.policy T).binary_typed) :
    _impl.binary_operator_common O op T lhs rhs
      = ((O.policy T).binary_operator op lhs.rep rhs.rep lhs.value rhs.value).map
          fun r => ⟨(O.policy T).binary_result op lhs.rep rhs.rep, T, r⟩ := by
  unfold _impl.binary_operator_common make_overflow_int to_rep
  cases hb : (O.policy T).binary_operator op lhs.rep rhs.rep lhs.value rhs.value with
  | none => simp
  | some r =>
    simp only [Option.some_bind, Option.map_some']
    exact overflow_integer.from_rhs_eq_some O _ _ T r r
      (hconv _ _ r (htyped op lhs.rep rhs.rep lhs.value rhs.value r hb))

/-! ## C1: result type of a binary operator on operands of one tag -/

/-- C1, as stated, fails.  The type produced by the dispatcher is a wrapper around
the return type of the policy handler, which need not be the common type: under the
throwing policy two `short` wrappers give an `int` wrapper while the resolver
gives a `short` wrapper.  And the resolver maps a 16-bit and an 8-bit
representation to `int`, a 32-bit type, not to the 16-bit one. -/
theorem binary_operator_result_common_type_counterexample :
    ¬ (∀ (O : Overflow) (op : binary_op) (R1 R2 : Integral) (T : Tag),
        _impl.binary_operator_result O op
            (.overflow_integer (.builtin (.integral R1)) T)
            (.overflow_integer (.builtin (.integral R2)) T)
          = std_common_type 2
            (.overflow_integer (.builtin (.integral R1)) T)
            (.overflow_integer (.builtin (.integral R2)) T))
    ∧ std_common_type 2
        (.overflow_integer (.builtin (.integral .short)) throwing_overflow_tag)
        (.overflow_integer (.builtin (.integral .signed_char)) throwing_overflow_tag)
      = some (.overflow_integer (.builtin (.integral .int)) throwing_overflow_tag)
    ∧ Integral.int.width = 32 := by
  refine ⟨fun h => ?_, by decide, by decide⟩
  have h1 := h throwing_overflow .add_op .short .short throwing_overflow_tag
  revert h1
  decide

/-- C1, amended.  For operands `overflow_integer<R1,T>` and `overflow_integer<R2,T>` the
dispatcher yields `overflow_integer<Ret,T>`, where `Ret` is the return type of the
binary handler of `T`, and every value it returns has that type; the promotion
resolver yields `overflow_integer<std::common_type<R1,R2>,T>`; the two coincide exactly
when `Ret` is `std::common_type<R1,R2>`. -/
theorem binary_operator_result_common_tag (O : Overflow) (op : binary_op)
    (R1 R2 : Integral) (T : Tag) :
    _impl.binary_operator_result O op
        (.overflow_integer (.builtin (.integral R1)) T)
        (.overflow_integer (.builtin (.integral R2)) T)
      = some (.overflow_integer
          (.builtin (.integral ((O.policy T).binary_result op R1 R2))) T)
    ∧ (∀ (n : Nat), std_common_type (n + 2)
        (.overflow_integer (.builtin (.integral R1)) T)
        (.overflow_integer (.builtin (.integral R2)) T)
      = some (.overflow_integer (.builtin (.integral (R1.common_type R2))) T))
    ∧ (_impl.binary_operator_result O op
          (.overflow_integer (.builtin (.integral R1)) T)
          (.overflow_integer (.builtin (.integral R2)) T)
        = std_common_type 2
          (.overflow_integer (.builtin (.integral R1)) T)
          (.overflow_integer (.builtin (.integral R2)) T)
        ↔ (O.policy T).binary_result op R1 R2 = R1.common_type R2)
    ∧ (∀ (x y : Int) (w : overflow_integer),
        _impl.binary_operator O op ⟨R1, T, x⟩ ⟨R2, T, y⟩ = some w →
          some w.type = _impl.binary_operator_result O op
            (.overflow_integer (.builtin (.integral R1)) T)
            (.overflow_integer (.builtin (.integral R2)) T)) := by
  have hres : ∀ (n : Nat), std_common_type (n + 2)
        (.overflow_integer (.builtin (.integral R1)) T)
        (.overflow_integer (.builtin (.integral R2)) T)
      = some (.overflow_integer (.builtin (.integral (R1.common_type R2))) T) := by
    intro n
    simp only [std_common_type, _integer_impl.common_type, if_true, Option.map_some',
      Builtin.common_type, Integral.common_type, Builtin.usual_arithmetic]
    by_cases h : R1 = R2 <;> simp [h]
  refine ⟨by simp [_impl.binary_operator_result], hres, ?_, ?_⟩
  · rw [hres 0]
    simp [_impl.binary_operator_result]
  · intro x y w hw
    rw [_impl.binary_operator_of_common_tag O op ⟨R1, T, x⟩ ⟨R2, T, y⟩ rfl] at hw
    unfold _impl.binary_operator_common make_overflow_int at hw
    cases hb : (O.policy T).binary_operator op R1 R2 x y with
    | none => simp [to_rep, hb] at hw
    | some r =>
      simp only [to_rep, hb, Option.some_bind] at hw
      obtain ⟨h1, h2⟩ := overflow_integer.from_rhs_type O _ _ T r w hw
      simp [_impl.binary_operator_result, overflow_integer.type, h1, h2]

/-! ## C2: value of a binary operator on operands of one tag -/

/-- C2.  For operands of one tag `T`, whose policy converts representable values
unchanged and whose handler returns values of its return type: the dispatcher
signals exactly when the binary handler of `T` does, and otherwise returns the
wrapper tagged `T` whose raw value is the value the handler returned for the two
raw values; so when the handler returns the mathematical result, that is the raw
value of the result. -/
theorem binary_operator_common_tag_value (O : Overflow) (op : binary_op) (T : Tag)
    (lhs rhs : overflow_integer)
    (hl : lhs.overflow_tag = T) (hr : rhs.overflow_tag = T)
    (hconv : (O.policy T).converts_in_range) (htyped : (O.policy T).binary_typed) :
    _impl.binary_operator O op lhs rhs
        = ((O.policy T).binary_operator op lhs.rep rhs.rep (to_rep lhs) (to_rep rhs)).map
            (fun r => ⟨(O.policy T).binary_result op lhs.rep rhs.rep, T, r⟩)
    ∧ (∀ (m : Int), op.exact (to_rep lhs) (to_rep rhs) = some m →
        (O.policy T).binary_operator op lhs.rep rhs.rep (to_rep lhs) (to_rep rhs) = some m →
        (_impl.binary_operator O op lhs rhs).map to_rep = some m
        ∧ (_impl.binary_operator O op lhs rhs).map (fun w => w.overflow_tag) = some T) := by
  have hmain : _impl.binary_operator O op lhs rhs
        = ((O.policy T).binary_operator op lhs.rep rhs.rep (to_rep lhs) (to_rep rhs)).map
            (fun r => ⟨(O.policy T).binary_result op lhs.rep rhs.rep, T, r⟩) := by
    rw [_impl.binary_operator_of_common_tag O op lhs rhs (hl.trans hr.symm), hl]
    exact _impl.binary_operator_common_eq O op T lhs rhs hconv htyped
  refine ⟨hmain, ?_⟩
  intro m _ hm
  rw [hmain, hm]
  simp [to_rep]

/-- C2 at the operands 1000 (16-bit) and 5 (8-bit) under the throwing policy: the sum
is 1005. -/
theorem binary_operator_common_tag_value_witness :
    throwing_policy.converts_in_range ∧ throwing_policy.binary_typed
    ∧ _impl.binary_operator throwing_overflow .add_op
        ⟨.short, throwing_overflow_tag, 1000⟩ ⟨.signed_char, throwing_overflow_tag, 5⟩
      = some ⟨.int, throwing_overflow_tag, 1005⟩ := by
  refine ⟨throwing_policy_converts_in_range, throwing_policy_binary_typed, ?_⟩
  rw [(binary_operator_common_tag_value throwing_overflow .add_op throwing_overflow_tag
    ⟨.short, throwing_overflow_tag, 1000⟩ ⟨.signed_char, throwing_overflow_tag, 5⟩ rfl rfl
    throwing_policy_converts_in_range throwing_policy_binary_typed).1]
  decide

/-! ## C3: arithmetic paths and the policy -/

/-- C3 fails on the unary path.  Under the throwing policy, whose conversion and
binary handler signal every unrepresentable result, negating the `unsigned int`
wrapper holding 1 has the mathematical result -1, which `unsigned int`, the type of
the result, cannot represent; the dispatcher nevertheless returns a wrapper, holding
4294967295.  Likewise, the built-in negation taken modulo `2 ^ 32`, negating the
lowest `int` returns a wrapper. -/
theorem unary_operator_bypasses_policy :
    throwing_policy.binary_signals ∧ throwing_policy.convert_signals
    ∧ unary_op.result .minus_op .unsigned_int = .unsigned_int
    ∧ ¬ Integral.unsigned_int.in_range (unary_op.exact .minus_op 1)
    ∧ _impl.unary_operator throwing_overflow .minus_op
        ⟨.unsigned_int, throwing_overflow_tag, 1⟩
      = some ⟨.unsigned_int, throwing_overflow_tag, 4294967295⟩
    ∧ ¬ Integral.int.in_range (unary_op.exact .minus_op Integral.int.lowest)
    ∧ _impl.unary_operator throwing_overflow .minus_op
        ⟨.int, throwing_overflow_tag, Integral.int.lowest⟩
      = some ⟨.int, throwing_overflow_tag, Integral.int.lowest⟩ := by
  refine ⟨throwing_policy_binary_signals, throwing_policy_convert_signals, ?_, ?_, ?_, ?_, ?_⟩
    <;> decide

/-! ## C4: operands of different tags over one representation -/

/-- C4.  For operands `a` and `b` over one representation type `R` with different tags
whose common tag is `U`: the dispatcher returns what the same operator returns on
the two operands converted to `overflow_integer<R,U>`, and a result is tagged `U`. -/
theorem binary_operator_different_tags (O : Overflow) (op : binary_op)
    (a b : overflow_integer) (U : Tag)
    (htag : a.overflow_tag ≠ b.overflow_tag)
    (hU : O.common_tag a.overflow_tag b.overflow_tag = some U)
    (hrep : a.rep = b.rep) :
    _impl.binary_operator O op a b
        = ((overflow_integer.from_overflow_integer O a.rep U a).bind fun a' =>
            (overflow_integer.from_overflow_integer O b.rep U b).bind fun b' =>
              _impl.binary_operator O op a' b')
    ∧ (∀ (w : overflow_integer), _impl.binary_operator O op a b = some w →
        w.overflow_tag = U)
    ∧ (U = a.overflow_tag → overflow_integer.from_overflow_integer O a.rep U a = some a)
    ∧ (U = b.overflow_tag → overflow_integer.from_overflow_integer O b.rep U b = some b)
    ∧ overflow_integer.from_overflow_integer O a.rep U b
        = (if U = b.overflow_tag then some b
          else ((O.policy U).convert a.rep b.rep (to_rep b)).map fun v => ⟨a.rep, U, v⟩) := by
  have hmain : _impl.binary_operator O op a b
        = ((overflow_integer.from_overflow_integer O a.rep U a).bind fun a' =>
            (overflow_integer.from_overflow_integer O b.rep U b).bind fun b' =>
              _impl.binary_operator O op a' b') := by
    rw [← hrep]
    conv_lhs => unfold _impl.binary_operator
    simp only [htag, if_false, hU, Option.some_bind]
    cases ha : overflow_integer.from_overflow_integer O a.rep U a with
    | none => simp
    | some a' =>
      cases hb : overflow_integer.from_overflow_integer O a.rep U b with
      | none => simp
      | some b' =>
        have hta := (overflow_integer.from_overflow_integer_type O _ U _ a' ha).2
        have htb := (overflow_integer.from_overflow_integer_type O _ U _ b' hb).2
        simp only [Option.some_bind]
        rw [_impl.binary_operator_of_common_tag O op a' b' (hta.trans htb.symm), hta]
  refine ⟨hmain, ?_, ?_, ?_, ?_⟩
  rotate_left
  · intro h
    subst h
    exact overflow_integer.from_overflow_integer_of_eq O a
  · intro h
    subst h
    exact overflow_integer.from_overflow_integer_of_eq O b
  · by_cases h : U = b.overflow_tag
    · subst h
      rw [hrep]
      simp [overflow_integer.from_overflow_integer_of_eq]
    · have hne : ¬ (b.rep = a.rep ∧ b.overflow_tag = U) := fun hc => h hc.2.symm
      rw [overflow_integer.from_overflow_integer_of_ne O a.rep U b hne]
      simp [overflow_integer.from_rhs, h]
  intro w hw
  unfold _impl.binary_operator at hw
  simp only [htag, if_false, hU, Option.some_bind] at hw
  cases ha : overflow_integer.from_overflow_integer O a.rep U a with
  | none => simp [ha] at hw
  | some a' =>
    cases hb : overflow_integer.from_overflow_integer O a.rep U b with
    | none => simp [ha, hb] at hw
    | some b' =>
      simp only [ha, hb, Option.some_bind] at hw
      unfold _impl.binary_operator_common make_overflow_int at hw
      cases hh : (O.policy U).binary_operator op a'.rep b'.rep (to_rep a') (to_rep b') with
      | none => simp [hh] at hw
      | some r =>
        simp only [hh, Option.some_bind] at hw
        exact (overflow_integer.from_rhs_type O _ _ U r w hw).2

/-- C4 at two `int` wrappers holding 1000 and 5 with the tags 1 and 2, whose common tag
is tag 1: the sum is the wrapper tagged 1 that holds 1005, as for the converted
operands. -/
theorem binary_operator_different_tags_witness :
    (⟨1⟩ : Tag) ≠ ⟨2⟩
    ∧ throwing_overflow.common_tag ⟨1⟩ ⟨2⟩ = some ⟨1⟩
    ∧ _impl.binary_operator throwing_overflow .add_op ⟨.int, ⟨1⟩, 1000⟩ ⟨.int, ⟨2⟩, 5⟩
        = ((overflow_integer.from_overflow_integer throwing_overflow .int ⟨1⟩
              ⟨.int, ⟨1⟩, 1000⟩).bind fun a' =>
            (overflow_integer.from_overflow_integer throwing_overflow .int ⟨1⟩
              ⟨.int, ⟨2⟩, 5⟩).bind fun b' =>
              _impl.binary_operator throwing_overflow .add_op a' b')
    ∧ _impl.binary_operator throwing_overflow .add_op ⟨.int, ⟨1⟩, 1000⟩ ⟨.int, ⟨2⟩, 5⟩
        = some ⟨.int, ⟨1⟩, 1005⟩ :=
  ⟨by decide, rfl,
    (binary_operator_different_tags throwing_overflow .add_op ⟨.int, ⟨1⟩, 1000⟩
      ⟨.int, ⟨2⟩, 5⟩ ⟨1⟩ (by decide) rfl rfl).1,
    by decide⟩

/-! ## C5: round trip through the wrapper -/

/-- C5.  For a tag whose conversion rule returns representable values unchanged and a
value `v` that the representation type `R` can represent: the wrapper built from `v`
(given as a value of any integer type), converted explicitly to `R`, is `v`; so is
the wrapper built by `make_overflow_int`. -/
theorem construct_then_cast_round_trip (O : Overflow) (T : Tag) (R Input : Integral)
    (v : Int) (hconv : (O.policy T).converts_in_range) (hv : R.in_range v) :
    (overflow_integer.from_rhs O R T Input v).map (overflow_integer.cast R) = some v
    ∧ (make_overflow_int O T R v).map (overflow_integer.cast R) = some v := by
  have h : ∀ (I : Integral),
      (overflow_integer.from_rhs O R T I v).map (overflow_integer.cast R) = some v := by
    intro I
    rw [overflow_integer.from_rhs_eq_some O R I T v v (hconv R I v hv)]
    simp [overflow_integer.cast, to_rep, Integral.static_cast_of_in_range R v hv]
  exact ⟨h Input, h R⟩

/-- C5 at the value -128 for an 8-bit signed representation under the throwing policy. -/
theorem construct_then_cast_round_trip_witness :
    throwing_policy.converts_in_range ∧ Integral.signed_char.in_range (-128)
    ∧ (overflow_integer.from_rhs throwing_overflow .signed_char throwing_overflow_tag
        .int (-128)).map (overflow_integer.cast .signed_char) = some (-128)
    ∧ (make_overflow_int throwing_overflow throwing_overflow_tag .signed_char
        (-128)).map (overflow_integer.cast .signed_char) = some (-128) :=
  ⟨throwing_policy_converts_in_range, by decide,
    construct_then_cast_round_trip throwing_overflow throwing_overflow_tag .signed_char .int
      (-128) throwing_policy_converts_in_range (by decide)⟩

/-! ## C6: construction from a compile-time constant -/

/-- C6 fails for an unsigned representation as wide as the type of the constant.  The
constant -1 of type `long` is outside the range of `unsigned long`, yet both static
assertions hold, because each comparison converts -1 to `unsigned long`; the wrapper
is built and holds 18446744073709551615.  For every signed type of the constant
there is such an unsigned representation.  The constant 1000 is rejected for an
8-bit signed representation whatever the type of the constant. -/
theorem constant_out_of_range_accepted :
    ¬ Integral.unsigned_long.in_range (-1)
    ∧ constant_accepted .long (-1) .unsigned_long = true
    ∧ overflow_integer.from_constant .unsigned_long throwing_overflow_tag .long (-1)
        = some ⟨.unsigned_long, throwing_overflow_tag, 18446744073709551615⟩
    ∧ overflow_integer.from_constant .unsigned_int throwing_overflow_tag .int (-1)
        = some ⟨.unsigned_int, throwing_overflow_tag, 4294967295⟩
    ∧ (∀ (ValueType : Integral), ValueType.is_signed = true →
        constant_accepted ValueType (-1) ValueType.promote.to_unsigned = true
        ∧ ¬ ValueType.promote.to_unsigned.in_range (-1))
    ∧ (∀ (ValueType : Integral), constant_accepted ValueType 1000 .signed_char = false) := by
  refine ⟨by decide, by decide, by decide, by decide, ?_, ?_⟩
  · intro V
    cases V <;> decide
  · intro V
    cases V <;> decide

/-! ## C7: comparison of a wrapper with a native integer -/

/-- C7.  For a wrapper `a` tagged `T`, whose policy converts representable values
unchanged, and a native integer `n` of type `Input` that the representation type `R`
of its wrapper can represent: comparing `a` with the wrapper built from `n` returns
what the comparison handler of `T` returns for the two raw values, a boolean.  When
no overflow is involved, the raw value of `a` and `n` both being representable in the
type to which the built-in comparison converts them, and the handler of `T` compares
such values mathematically, the result is the built-in comparison of the raw value
of `a` with `n`. -/
theorem comparison_with_native (O : Overflow) (op : comparison_op) (T : Tag)
    (a : overflow_integer) (R Input : Integral) (n : Int)
    (ha : a.overflow_tag = T)
    (hconv : (O.policy T).converts_in_range) (hn : R.in_range n) :
    ((overflow_integer.from_rhs O R T Input n).bind fun w =>
        _impl.comparison_operator O op a w)
      = (O.policy T).comparison_operator op a.rep R (to_rep a) n
    ∧ ((O.policy T).compares_representable →
        (a.rep.usual_arithmetic R).in_range (to_rep a) → (a.rep.usual_arithmetic R).in_range n →
        ((overflow_integer.from_rhs O R T Input n).bind fun w =>
          _impl.comparison_operator O op a w) = some (op.native a.rep (to_rep a) R n)
        ∧ op.native a.rep (to_rep a) R n = op.exact (to_rep a) n) := by
  have hmain : ((overflow_integer.from_rhs O R T Input n).bind fun w =>
        _impl.comparison_operator O op a w)
      = (O.policy T).comparison_operator op a.rep R (to_rep a) n := by
    rw [overflow_integer.from_rhs_eq_some O R Input T n n (hconv R Input n hn)]
    simp [_impl.comparison_operator, _impl.comparison_operator_common, ha, to_rep]
  refine ⟨hmain, fun hcmp hra hrn => ?_⟩
  have hnat := comparison_op.native_of_in_range op a.rep R (to_rep a) n hra hrn
  exact ⟨by rw [hmain, hcmp op a.rep R (to_rep a) n hra hrn, hnat], hnat⟩

/-- C7 under the throwing policy: the 8-bit wrapper holding 3 is equal to the native 3
and the 8-bit wrapper holding -1 is less than the native `int` 1, as in the built-in
comparisons. -/
theorem comparison_with_native_witness :
    throwing_policy.converts_in_range ∧ throwing_policy.compares_representable
    ∧ Integral.int.in_range 3
    ∧ ((overflow_integer.from_rhs throwing_overflow .int throwing_overflow_tag .int 3).bind
        fun w => _impl.comparison_operator throwing_overflow .equal_op
          ⟨.signed_char, throwing_overflow_tag, 3⟩ w)
        = some (comparison_op.equal_op.native .signed_char 3 .int 3)
    ∧ comparison_op.equal_op.native .signed_char 3 .int 3 = true
    ∧ ((overflow_integer.from_rhs throwing_overflow .int throwing_overflow_tag .int 1).bind
        fun w => _impl.comparison_operator throwing_overflow .less_than_op
          ⟨.signed_char, throwing_overflow_tag, -1⟩ w)
        = some (comparison_op.less_than_op.native .signed_char (-1) .int 1)
    ∧ comparison_op.less_than_op.native .signed_char (-1) .int 1 = true :=
  ⟨throwing_policy_converts_in_range, throwing_policy_compares_representable, by decide,
    ((comparison_with_native throwing_overflow .equal_op throwing_overflow_tag
      ⟨.signed_char, throwing_overflow_tag, 3⟩ .int .int 3 rfl
      throwing_policy_converts_in_range (by decide)).2
      throwing_policy_compares_representable (by decide) (by decide)).1,
    by decide,
    ((comparison_with_native throwing_overflow .less_than_op throwing_overflow_tag
      ⟨.signed_char, throwing_overflow_tag, -1⟩ .int .int 1 rfl
      throwing_policy_converts_in_range (by decide)).2
      throwing_policy_compares_representable (by decide) (by decide)).1,
    by decide⟩

/-! ## C8: the promotion resolver on wrappers of different tags -/

/-- C8 fails.  For two wrapper types with different tags the only specialisation of
`_integer_impl::common_type` that applies is the one that exchanges the operands, so
the instantiation refers to itself and never reaches a member `type`: at every
depth neither `_integer_impl::common_type` nor `std::common_type` yields a type. -/
theorem common_type_different_tags_none (n : Nat) (LhsRep RhsRep : Ty) (LhsTag RhsTag : Tag)
    (h : LhsTag ≠ RhsTag) :
    _integer_impl.common_type n (.overflow_integer LhsRep LhsTag)
        (.overflow_integer RhsRep RhsTag) = none
    ∧ std_common_type n (.overflow_integer LhsRep LhsTag)
        (.overflow_integer RhsRep RhsTag) = none := by
  have key : ∀ (k : Nat) (l r : Ty) (s t : Tag), s ≠ t →
      _integer_impl.common_type k (.overflow_integer l s) (.overflow_integer r t) = none := by
    intro k
    induction k with
    | zero => intro l r s t _; simp [_integer_impl.common_type]
    | succ k ih =>
      intro l r s t hst
      simp only [_integer_impl.common_type, hst, if_false]
      exact ih r l t s (Ne.symm hst)
  refine ⟨key n _ _ _ _ h, ?_⟩
  cases n with
  | zero => simp [std_common_type]
  | succ k =>
    simp only [std_common_type]
    exact key k _ _ _ _ h

/-- C8 at `overflow_integer<int, tag 1>` and `overflow_integer<int, tag 2>`, at depth 100. -/
theorem common_type_different_tags_none_witness :
    (⟨1⟩ : Tag) ≠ ⟨2⟩
    ∧ _integer_impl.common_type 100 (.overflow_integer (.builtin (.integral .int)) ⟨1⟩)
        (.overflow_integer (.builtin (.integral .int)) ⟨2⟩) = none
    ∧ std_common_type 100 (.overflow_integer (.builtin (.integral .int)) ⟨1⟩)
        (.overflow_integer (.builtin (.integral .int)) ⟨2⟩) = none :=
  ⟨by decide, common_type_different_tags_none 100 _ _ ⟨1⟩ ⟨2⟩ (by decide)⟩

/-! ## C9 and C10: the promotion resolver on a wrapper and a native type -/

/-- The common type of any descriptor and a native integer type exists, whatever the
nesting of wrappers; for an arithmetic type it is the one of the language. -/
theorem std_common_type_integral_yields (R : Ty) (I : Integral) :
    ∃ C : Ty, (∀ (n : Nat),
        std_common_type (2 * R.depth + n) R (.builtin (.integral I)) = some C)
      ∧ (∀ (b : Builtin), R = .builtin b → C = .builtin (b.common_type (.integral I))) := by
  induction R with
  | builtin b =>
    refine ⟨.builtin (b.common_type (.integral I)), fun n => ?_, fun b' hb => ?_⟩
    · simp [std_common_type]
    · cases hb; rfl
  | overflow_integer rep tag ih =>
    obtain ⟨C, hC, _⟩ := ih
    refine ⟨.overflow_integer C tag, fun n => ?_, fun b' hb => ?_⟩
    · have hfuel : 2 * (Ty.overflow_integer rep tag).depth + n = (2 * rep.depth + n) + 1 + 1 := by
        simp only [Ty.depth]; omega
      rw [hfuel]
      simp only [std_common_type, _integer_impl.common_type, Builtin.is_integral, if_true, hC n,
        Option.map_some']
    · cases hb

/-- The common type of any descriptor and a floating-point type exists and is a
floating-point type; for an arithmetic type it is the one of the language. -/
theorem std_common_type_floating_yields (R : Ty) (F : Floating) :
    ∃ G : Floating, (∀ (n : Nat),
        std_common_type (2 * R.depth + n) R (.builtin (.floating F))
          = some (.builtin (.floating G)))
      ∧ (∀ (b : Builtin), R = .builtin b → .floating G = b.common_type (.floating F)) := by
  induction R with
  | builtin b =>
    cases b with
    | integral i =>
      refine ⟨F, fun n => ?_, fun b' hb => ?_⟩
      · simp [std_common_type, Builtin.common_type, Builtin.usual_arithmetic]
      · cases hb; simp [Builtin.common_type, Builtin.usual_arithmetic]
    | floating f =>
      refine ⟨if f = F then f else if f.rank < F.rank then F else f, fun n => ?_,
        fun b' hb => ?_⟩
      · by_cases h : f = F <;>
          simp [std_common_type, Builtin.common_type, Builtin.usual_arithmetic, h]
      · cases hb
        by_cases h : f = F <;> simp [Builtin.common_type, Builtin.usual_arithmetic, h]
  | overflow_integer rep tag ih =>
    obtain ⟨G, hG, _⟩ := ih
    refine ⟨G, fun n => ?_, fun b' hb => ?_⟩
    · have hfuel : 2 * (Ty.overflow_integer rep tag).depth + n = (2 * rep.depth + n) + 1 + 1 := by
        simp only [Ty.depth]; omega
      rw [hfuel]
      simp [std_common_type, _integer_impl.common_type, Builtin.is_integral,
        Builtin.is_floating_point, hG n]
    · cases hb

/-- C9.  For every wrapper type `overflow_integer<R,T>` and every native integer type `I`
the resolver ends and yields `overflow_integer<C,T>`, where `C` is `std::common_type<R,I>`
(for an arithmetic `R`, the common type of the language) and the tag is `T`. -/
theorem common_type_wrapper_integer (R : Ty) (T : Tag) (I : Integral) :
    ∃ C : Ty,
      (∀ (n : Nat), std_common_type (2 * R.depth + n) R (.builtin (.integral I)) = some C)
      ∧ (∀ (n : Nat), _integer_impl.common_type (2 * R.depth + n + 1)
          (.overflow_integer R T) (.builtin (.integral I)) = some (.overflow_integer C T))
      ∧ (∀ (n : Nat), std_common_type (2 * R.depth + n + 2)
          (.overflow_integer R T) (.builtin (.integral I)) = some (.overflow_integer C T))
      ∧ (∀ (b : Builtin), R = .builtin b → C = .builtin (b.common_type (.integral I))) := by
  obtain ⟨C, hC, hb⟩ := std_common_type_integral_yields R I
  refine ⟨C, hC, fun n => ?_, fun n => ?_, hb⟩
  · simp only [_integer_impl.common_type, Builtin.is_integral, if_true, hC n, Option.map_some']
  · simp only [std_common_type, _integer_impl.common_type, Builtin.is_integral, if_true, hC n,
      Option.map_some']

/-- C10.  For every wrapper type `overflow_integer<R,T>` and every floating-point type `F`
the resolver ends and yields a floating-point type `G`, which is `std::common_type<R,F>`
(for an arithmetic `R`, the common type of the language); `G` is the same for every
tag, and the result is not a wrapper. -/
theorem common_type_wrapper_floating (R : Ty) (F : Floating) :
    ∃ G : Floating,
      (∀ (n : Nat), std_common_type (2 * R.depth + n) R (.builtin (.floating F))
          = some (.builtin (.floating G)))
      ∧ (∀ (T : Tag) (n : Nat), _integer_impl.common_type (2 * R.depth + n + 1)
          (.overflow_integer R T) (.builtin (.floating F)) = some (.builtin (.floating G)))
      ∧ (∀ (T : Tag) (n : Nat), std_common_type (2 * R.depth + n + 2)
          (.overflow_integer R T) (.builtin (.floating F)) = some (.builtin (.floating G)))
      ∧ _integer_impl.is_overflow_int (.builtin (.floating G)) = false
      ∧ (∀ (b : Builtin), R = .builtin b → .floating G = b.common_type (.floating F)) := by
  obtain ⟨G, hG, hb⟩ := std_common_type_floating_yields R F
  refine ⟨G, hG, fun T n => ?_, fun T n => ?_, rfl, hb⟩
  · simp [_integer_impl.common_type, Builtin.is_integral, Builtin.is_floating_point, hG n]
  · simp [std_common_type, _integer_impl.common_type, Builtin.is_integral,
      Builtin.is_floating_point, hG n]

/-! ## C11: operand order in the promotion resolver -/

/-- The common type of any descriptor and an arithmetic type exists. -/
theorem std_common_type_builtin_yields (R : Ty) (N : Builtin) :
    ∃ C : Ty, ∀ (n : Nat), std_common_type (2 * R.depth + n) R (.builtin N) = some C := by
  cases N with
  | integral I =>
    obtain ⟨C, hC, _⟩ := std_common_type_integral_yields R I
    exact ⟨C, hC⟩
  | floating F =>
    obtain ⟨G, hG, _⟩ := std_common_type_floating_yields R F
    exact ⟨_, hG⟩

/-- C11.  For every wrapper type `W = overflow_integer<R,T>` and every native integer or
floating-point type `N`: resolving `(N, W)` is one more instantiation, that of
`(W, N)`, and both orders end with one and the same type, through
`_integer_impl::common_type` and through `std::common_type`. -/
theorem common_type_operand_order (R : Ty) (T : Tag) (N : Builtin) :
    (∀ (n : Nat), _integer_impl.common_type (n + 1) (.builtin N) (.overflow_integer R T)
        = _integer_impl.common_type n (.overflow_integer R T) (.builtin N))
    ∧ ∃ C : Ty,
      (∀ (n : Nat), _integer_impl.common_type (2 * R.depth + n + 1)
          (.overflow_integer R T) (.builtin N) = some C)
      ∧ (∀ (n : Nat), _integer_impl.common_type (2 * R.depth + n + 2)
          (.builtin N) (.overflow_integer R T) = some C)
      ∧ (∀ (n : Nat), std_common_type (2 * R.depth + n + 2)
          (.overflow_integer R T) (.builtin N) = some C)
      ∧ (∀ (n : Nat), std_common_type (2 * R.depth + n + 3)
          (.builtin N) (.overflow_integer R T) = some C) := by
  have hrev : ∀ (n : Nat),
      _integer_impl.common_type (n + 1) (.builtin N) (.overflow_integer R T)
        = _integer_impl.common_type n (.overflow_integer R T) (.builtin N) := by
    intro n
    simp only [_integer_impl.common_type]
  obtain ⟨C, hC⟩ := std_common_type_builtin_yields R N
  have hW : ∃ D : Ty, ∀ (n : Nat), _integer_impl.common_type (2 * R.depth + n + 1)
      (.overflow_integer R T) (.builtin N) = some D := by
    cases N with
    | integral I =>
      exact ⟨.overflow_integer C T, fun n => by
        simp only [_integer_impl.common_type, Builtin.is_integral, if_true, hC n,
          Option.map_some']⟩
    | floating F =>
      exact ⟨C, fun n => by
        simp [_integer_impl.common_type, Builtin.is_integral, Builtin.is_floating_point, hC n]⟩
  obtain ⟨D, hD⟩ := hW
  refine ⟨hrev, D, hD, fun n => ?_, fun n => ?_, fun n => ?_⟩
  · rw [hrev]; exact hD n
  · simp only [std_common_type]; exact hD n
  · simp only [std_common_type]; rw [hrev]; exact hD n

/-! ## C12: construction from another wrapper -/

/-- C12.  A source wrapper that does not have the target type `overflow_integer<R,T>` is
converted, under every policy, by the constructor from its raw value; a source
that has the target type is copied.  For a tag `T` whose conversion rule returns
representable values unchanged and a source `other` whose raw value is a value of
its representation type, constructing `overflow_integer<R,T>` from `other` is in every
case constructing it from the raw value of `other`: the result is the wrapper of
type `overflow_integer<R,T>` whose raw value is the conversion of `T` applied to that
raw value, and it is the same whatever the tag of `other` and whatever the policies
of the other tags. -/
theorem construct_from_wrapper (O : Overflow) (R : Integral) (T : Tag)
    (other : overflow_integer) :
    (¬ (other.rep = R ∧ other.overflow_tag = T) →
        overflow_integer.from_overflow_integer O R T other
          = overflow_integer.from_rhs O R T other.rep (to_rep other))
    ∧ (other.rep = R ∧ other.overflow_tag = T →
        overflow_integer.from_overflow_integer O R T other = some other)
    ∧ ((O.policy T).converts_in_range → other.rep.in_range (to_rep other) →
        overflow_integer.from_overflow_integer O R T other
            = overflow_integer.from_rhs O R T other.rep (to_rep other)
        ∧ overflow_integer.from_overflow_integer O R T other
            = ((O.policy T).convert R other.rep (to_rep other)).map (fun v => ⟨R, T, v⟩)
        ∧ (∀ (T2 : Tag), overflow_integer.from_overflow_integer O R T
              { other with overflow_tag := T2 }
            = overflow_integer.from_overflow_integer O R T other)
        ∧ (∀ (O2 : Overflow), O2.policy T = O.policy T →
            overflow_integer.from_overflow_integer O2 R T other
              = overflow_integer.from_overflow_integer O R T other)) := by
  refine ⟨overflow_integer.from_overflow_integer_of_ne O R T other, ?_, ?_⟩
  · rintro ⟨h1, h2⟩
    subst h1 h2
    exact overflow_integer.from_overflow_integer_of_eq O other
  · intro hconv hv
    have hmain := overflow_integer.from_overflow_integer_eq_from_rhs O R T other hconv hv
    refine ⟨hmain, hmain, fun T2 => ?_, fun O2 h => ?_⟩
    · rw [hmain]
      exact overflow_integer.from_overflow_integer_eq_from_rhs O R T
        { other with overflow_tag := T2 } hconv hv
    · rw [hmain, overflow_integer.from_overflow_integer_eq_from_rhs O2 R T other (h ▸ hconv) hv]
      simp only [overflow_integer.from_rhs, h]

/-- C12 at the 8-bit target with tag 1 under the throwing policy: the `int` source
holding 100 with tag 2 is converted and the 8-bit source holding 100 with tag 1 is
copied, both to the wrapper holding 100; the `int` source holding 1000 is refused
by the conversion. -/
theorem construct_from_wrapper_witness :
    throwing_policy.converts_in_range ∧ Integral.int.in_range 100
    ∧ overflow_integer.from_overflow_integer throwing_overflow .signed_char ⟨1⟩
        ⟨.int, ⟨2⟩, 100⟩ = some ⟨.signed_char, ⟨1⟩, 100⟩
    ∧ overflow_integer.from_rhs throwing_overflow .signed_char ⟨1⟩ .int 100
        = some ⟨.signed_char, ⟨1⟩, 100⟩
    ∧ overflow_integer.from_overflow_integer throwing_overflow .signed_char ⟨1⟩
        ⟨.signed_char, ⟨1⟩, 100⟩ = some ⟨.signed_char, ⟨1⟩, 100⟩
    ∧ overflow_integer.from_overflow_integer throwing_overflow .signed_char ⟨1⟩
        ⟨.int, ⟨2⟩, 1000⟩ = none := by
  have h := ((construct_from_wrapper throwing_overflow .signed_char ⟨1⟩ ⟨.int, ⟨2⟩, 100⟩).2.2
    throwing_policy_converts_in_range (by decide)).1
  refine ⟨throwing_policy_converts_in_range, by decide, ?_, by decide, by decide, by decide⟩
  rw [h]
  decide

/-! ## C14: digits -/

/-- C14.  The digits of `overflow_integer<R,T>` are the digits of `R`, which are those of
the arithmetic type at the core of `R`, for every tag.  The trait `set_digits` of the
wrapper is `overflow_integer<set_digits_t<R,n>,T>`: it yields a type exactly when
`set_digits` of `R` does, and that type is the wrapper with the same tag `T`, and every
tag inside `R`, around what the trait on the arithmetic types gives for the core of
`R`. -/
theorem digits_set_digits_wrapper (digits_builtin : Builtin → Nat)
    (set_digits_builtin : Builtin → Nat → Option Builtin) (R : Ty) (T : Tag) (n : Nat) :
    digits digits_builtin (.overflow_integer R T) = digits digits_builtin R
    ∧ digits digits_builtin (.overflow_integer R T) = digits_builtin R.base
    ∧ set_digits set_digits_builtin (.overflow_integer R T) n
        = (set_digits set_digits_builtin R n).map (fun r => .overflow_integer r T)
    ∧ set_digits set_digits_builtin (.overflow_integer R T) n
        = (set_digits_builtin R.base n).map (fun b => .overflow_integer (R.with_base b) T)
    ∧ (∀ (b : Builtin), digits digits_builtin (.overflow_integer (.builtin b) T)
          = digits_builtin b
        ∧ set_digits set_digits_builtin (.overflow_integer (.builtin b) T) n
          = (set_digits_builtin b n).map (fun r => .overflow_integer (.builtin r) T))
    ∧ (∀ (W : Ty), set_digits set_digits_builtin (.overflow_integer R T) n = some W ↔
        ∃ R' : Ty, set_digits set_digits_builtin R n = some R' ∧ W = .overflow_integer R' T)
    ∧ (∀ (W : Ty), set_digits set_digits_builtin (.overflow_integer R T) n = some W →
        _impl.get_rep W = set_digits set_digits_builtin R n
        ∧ from_value W R = some (.overflow_integer R T)) := by
  have hset : set_digits set_digits_builtin (.overflow_integer R T) n
      = (set_digits set_digits_builtin R n).map (fun r => .overflow_integer r T) := by
    simp only [set_digits]
  have hbase : set_digits set_digits_builtin (.overflow_integer R T) n
      = (set_digits_builtin R.base n).map (fun b => .overflow_integer (R.with_base b) T) := by
    rw [set_digits_eq_base]
    rfl
  refine ⟨by simp only [digits], ?_, hset, hbase, fun b => ⟨rfl, ?_⟩, fun W => ?_,
    fun W hW => ?_⟩
  · rw [digits_eq_base]
    rfl
  · simp only [set_digits]
    cases set_digits_builtin b n <;> rfl
  · rw [hset]
    cases set_digits set_digits_builtin R n with
    | none => simp
    | some r =>
      simp only [Option.map_some', Option.some.injEq]
      constructor
      · intro h; exact ⟨r, rfl, h.symm⟩
      · rintro ⟨R', h1, h2⟩; rw [h2, h1]
  · rw [hset] at hW
    cases hs : set_digits set_digits_builtin R n with
    | none => simp [hs] at hW
    | some r =>
      simp only [hs, Option.map_some', Option.some.injEq] at hW
      subst hW
      simp [_impl.get_rep, from_value]

/-- C14 with the digit traits of the arithmetic types: the wrappers of `int` have 31
digits under any tag, a wrapper of a wrapper of `unsigned char` has 8, and 15 digits
asked of the 8-bit signed wrapper tagged 5 give the 16-bit signed wrapper tagged 5. -/
theorem digits_set_digits_wrapper_witness :
    digits Builtin.digits (.overflow_integer (.builtin (.integral .int)) ⟨5⟩) = 31
    ∧ digits Builtin.digits
        (.overflow_integer (.overflow_integer (.builtin (.integral .unsigned_char)) ⟨1⟩) ⟨2⟩)
      = 8
    ∧ set_digits Builtin.set_digits (.overflow_integer (.builtin (.integral .signed_char)) ⟨5⟩)
        15 = some (.overflow_integer (.builtin (.integral .short)) ⟨5⟩)
    ∧ set_digits Builtin.set_digits (.overflow_integer (.builtin (.integral .signed_char)) ⟨5⟩)
        100 = none := by
  have h1 := (digits_set_digits_wrapper Builtin.digits Builtin.set_digits
    (.builtin (.integral .int)) ⟨5⟩ 15).2.1
  have h2 := (digits_set_digits_wrapper Builtin.digits Builtin.set_digits
    (.overflow_integer (.builtin (.integral .unsigned_char)) ⟨1⟩) ⟨2⟩ 15).2.1
  have h3 := (digits_set_digits_wrapper Builtin.digits Builtin.set_digits
    (.builtin (.integral .signed_char)) ⟨5⟩ 15).2.2.2.1
  have h4 := (digits_set_digits_wrapper Builtin.digits Builtin.set_digits
    (.builtin (.integral .signed_char)) ⟨5⟩ 100).2.2.2.1
  refine ⟨?_, ?_, ?_, ?_⟩
  · rw [h1]; decide
  · rw [h2]; decide
  · rw [h3]; decide
  · rw [h4]; decide

/-! ## C15: numeric limits -/

/-- C15.  Each of the four specialisations of `numeric_limits` for a wrapper, with or
without `const`, in `cnl` and in `std`, reports the minimum, the maximum, the lowest
value and the signedness of the limits of the representation type, whatever the
tag, and reports `is_integer` as true whatever the limits of the representation
type report. -/
theorem numeric_limits_wrapper (rep_limits : numeric_limits) (T : Tag) :
    (∀ L ∈ [cnl_numeric_limits rep_limits T, cnl_numeric_limits_const rep_limits T,
          std_numeric_limits rep_limits T, std_numeric_limits_const rep_limits T],
        L.min = rep_limits.min ∧ L.max = rep_limits.max ∧ L.lowest = rep_limits.lowest
        ∧ L.is_signed = rep_limits.is_signed ∧ L.is_integer = true)
    ∧ (∀ (T2 : Tag), cnl_numeric_limits rep_limits T2 = cnl_numeric_limits rep_limits T
        ∧ cnl_numeric_limits_const rep_limits T2 = cnl_numeric_limits_const rep_limits T
        ∧ std_numeric_limits rep_limits T2 = std_numeric_limits rep_limits T
        ∧ std_numeric_limits_const rep_limits T2 = std_numeric_limits_const rep_limits T)
    ∧ (cnl_numeric_limits Integral.signed_char.numeric_limits T).lowest = -128
    ∧ (cnl_numeric_limits Integral.signed_char.numeric_limits T).max = 127 := by
  refine ⟨?_, fun T2 => ⟨rfl, rfl, rfl, rfl⟩,
    by show Integral.signed_char.lowest = -128; decide,
    by show Integral.signed_char.max = 127; decide⟩
  intro L hL
  simp only [List.mem_cons, List.mem_singleton, List.not_mem_nil, or_false] at hL
  rcases hL with h | h | h | h <;> subst h <;> exact ⟨rfl, rfl, rfl, rfl, rfl⟩

/-! ## C16: operands of different tags and different representations -/

/-- C16 fails.  With different tags both operands are converted to
`overflow_integer<LhsRep, common_tag>`, so the right operand is converted to the
representation of the left one.  Under the throwing policy, for the 8-bit wrapper
holding 1 with tag 1 and the `int` wrapper holding 1000 with tag 2, whose common tag
is tag 1, that conversion signals an error, and so do the sum and the comparison;
the operands re-tagged over their own representations give 1001 and true. -/
theorem different_tags_convert_rhs_to_lhs_rep :
    throwing_overflow.common_tag ⟨1⟩ ⟨2⟩ = some ⟨1⟩
    ∧ overflow_integer.from_overflow_integer throwing_overflow .signed_char ⟨1⟩
        ⟨.int, ⟨2⟩, 1000⟩ = none
    ∧ _impl.binary_operator throwing_overflow .add_op
        ⟨.signed_char, ⟨1⟩, 1⟩ ⟨.int, ⟨2⟩, 1000⟩ = none
    ∧ ((overflow_integer.from_rhs throwing_overflow .signed_char ⟨1⟩ .signed_char 1).bind
        fun a => (overflow_integer.from_rhs throwing_overflow .int ⟨1⟩ .int 1000).bind
          fun b => _impl.binary_operator throwing_overflow .add_op a b)
        = some ⟨.int, ⟨1⟩, 1001⟩
    ∧ _impl.comparison_operator throwing_overflow .less_than_op
        ⟨.signed_char, ⟨1⟩, 1⟩ ⟨.int, ⟨2⟩, 1000⟩ = none
    ∧ ((overflow_integer.from_rhs throwing_overflow .signed_char ⟨1⟩ .signed_char 1).bind
        fun a => (overflow_integer.from_rhs throwing_overflow .int ⟨1⟩ .int 1000).bind
          fun b => _impl.comparison_operator throwing_overflow .less_than_op a b)
        = some true := by
  refine ⟨rfl, ?_, ?_, ?_, ?_, ?_⟩ <;> decide

/-! ## C17: unary operators -/

/-- Whatever `static_cast` returns is a value of the target type. -/
theorem Integral.static_cast_in_range (t : Integral) (v : Int) :
    t.in_range (t.static_cast v) := by
  cases t <;>
    simp [Integral.in_range, Integral.lowest, Integral.max, Integral.static_cast,
      Integral.is_signed, Integral.width] <;> omega

/-- A value of an integer type is a value of the promoted type. -/
theorem Integral.in_range_promote (t : Integral) (v : Int) (h : t.in_range v) :
    t.promote.in_range v := by
  cases t <;>
    simp [Integral.in_range, Integral.lowest, Integral.max, Integral.promote, Integral.rank,
      Integral.is_signed, Integral.width] at h ⊢ <;> omega

/-- C17.  For an operand `w` tagged `T` whose raw value is a value of its representation
type, under a policy that converts representable values unchanged: the unary
dispatcher returns the wrapper with the same tag, whose representation type is the
type of the built-in operator on the representation type and whose raw value is
the built-in operator applied to the raw value of `w`. -/
theorem unary_operator_value (O : Overflow) (op : unary_op) (w : overflow_integer)
    (hconv : (O.policy w.overflow_tag).converts_in_range) (hw : w.rep.in_range (to_rep w)) :
    _impl.unary_operator O op w
      = some ⟨op.result w.rep, w.overflow_tag, op.apply w.rep (to_rep w)⟩ := by
  unfold _impl.unary_operator
  apply overflow_integer.from_rhs_eq_some
  apply hconv
  cases op with
  | minus_op => exact Integral.static_cast_in_range _ _
  | plus_op => exact Integral.in_range_promote _ _ hw

/-- C17 at the negation of the 8-bit wrapper holding -128 under the throwing policy:
the result is the `int` wrapper holding 128, with the same tag. -/
theorem unary_operator_value_witness :
    throwing_policy.converts_in_range ∧ Integral.signed_char.in_range (-128)
    ∧ _impl.unary_operator throwing_overflow .minus_op ⟨.signed_char, ⟨3⟩, -128⟩
      = some ⟨.int, ⟨3⟩, 128⟩ := by
  refine ⟨throwing_policy_converts_in_range, by decide, ?_⟩
  rw [unary_operator_value throwing_overflow .minus_op ⟨.signed_char, ⟨3⟩, -128⟩
    throwing_policy_converts_in_range (by decide)]
  decide

/-! ## C18: the value stored by the constructor from a constant -/

/-- C18 fails where C6 does.  The constructor stores `static_cast<rep>(Value)`, the same
for every tag and without any conversion rule, and that is `Value` when `Value` is in
the range of `rep`; but the constant -1 of type `long` is accepted for
`unsigned long`, and there the raw value, and the conversion back, is
18446744073709551615, not -1. -/
theorem constant_value_stored :
    (∀ (rep : Integral) (T : Tag) (ValueType : Integral) (Value : Int) (w : overflow_integer),
        overflow_integer.from_constant rep T ValueType Value = some w →
          to_rep w = rep.static_cast Value
          ∧ (rep.in_range Value → to_rep w = Value ∧ overflow_integer.cast rep w = Value)
          ∧ (∀ (T2 : Tag), overflow_integer.from_constant rep T2 ValueType Value
              = some { w with overflow_tag := T2 }))
    ∧ (overflow_integer.from_constant .unsigned_long throwing_overflow_tag .long (-1)).map
        to_rep = some 18446744073709551615
    ∧ (overflow_integer.from_constant .unsigned_long throwing_overflow_tag .long (-1)).map
        (overflow_integer.cast .unsigned_long) = some 18446744073709551615
    ∧ (overflow_integer.from_constant .unsigned_long throwing_overflow_tag .long (-1)).map
        to_rep ≠ some (-1) := by
  refine ⟨?_, by decide, by decide, by decide⟩
  intro rep T V C w h
  unfold overflow_integer.from_constant at h ⊢
  by_cases hacc : constant_accepted V C rep = true
  · simp only [hacc, if_true, Option.some.injEq] at h
    subst h
    refine ⟨rfl, fun hin => ?_, fun T2 => by simp [hacc]⟩
    simp [to_rep, overflow_integer.cast, Integral.static_cast_of_in_range rep C hin]
  · simp [hacc] at h

/-! ## C19: the traits that rewrite the representation -/

/-- C19.  For `W = overflow_integer<R,T>` and any type `R'`: `set_rep<W,R'>` and
`from_value<W,R'>` are `overflow_integer<R',T>`; `get_rep` of `set_rep<W,R'>` is `R'`; and
`set_rep<W, get_rep<W>>` is `W`. -/
theorem get_rep_set_rep_from_value (R R' : Ty) (T : Tag) :
    _impl.set_rep (.overflow_integer R T) R' = some (.overflow_integer R' T)
    ∧ from_value (.overflow_integer R T) R' = some (.overflow_integer R' T)
    ∧ (_impl.set_rep (.overflow_integer R T) R').bind _impl.get_rep = some R'
    ∧ (_impl.get_rep (.overflow_integer R T)).bind (_impl.set_rep (.overflow_integer R T))
        = some (.overflow_integer R T)
    ∧ (∀ (W : Ty), _impl.set_rep (.overflow_integer R T) R' = some W →
        (_impl.get_rep W).bind (_impl.set_rep W) = some W
        ∧ _impl.set_rep W R = some (.overflow_integer R T)) := by
  refine ⟨rfl, rfl, rfl, rfl, fun W hW => ?_⟩
  simp only [_impl.set_rep, Option.some.injEq] at hW
  subst hW
  exact ⟨rfl, rfl⟩

end cnl
